import Mathlib

/-!
# Verification of the voice-input module (`app/static/js/voice.js`)

A shallow embedding of the speech-recognition wrapper: its module-level
mutable state becomes an explicit `VState` record, the engine callbacks and
public operations become state-transition functions, timers become an
explicit list of pending timer ids, and transcript dispatches become lists
of emitted strings returned alongside the new state.  Times are integers
(milliseconds, as returned by `Date.now()`).
-/

namespace Voice

/-! ## String primitives mirroring the JavaScript string operations used -/

/-- The whitespace characters stripped by `String.prototype.trim` (ASCII part). -/
def wsChar (c : Char) : Bool :=
  c = ' ' || c = '\t' || c = '\n' || c = '\r' || c = '\x0b' || c = '\x0c'

/-- `trim`: drop leading and trailing whitespace. -/
def trimChars (l : List Char) : List Char :=
  ((l.dropWhile wsChar).reverse.dropWhile wsChar).reverse

/-- JavaScript `s.trim()`. -/
def jsTrim (s : String) : String := ⟨trimChars s.data⟩

/-- JavaScript `s.toLowerCase()` (per-character, ASCII). -/
def jsLower (s : String) : String := ⟨s.data.map Char.toLower⟩

/-- Index of the first occurrence of `need` in the haystack, scanning from
position `i`; `none` when there is no occurrence (JS `indexOf` = -1). -/
def idxOfAux (need : List Char) : List Char → Nat → Option Nat
  | [], i => if need.isPrefixOf ([] : List Char) then some i else none
  | c :: t, i => if need.isPrefixOf (c :: t) then some i else idxOfAux need t (i + 1)

/-- JavaScript `hay.indexOf(need)`, as `Option Nat`. -/
def strIndexOf (hay need : String) : Option Nat := idxOfAux need.data hay.data 0

/-- JavaScript `hay.includes(need)`. -/
def strIncludes (hay need : String) : Bool := (strIndexOf hay need).isSome

/-- The character class `[,:\s]` of the regex `/^[,:\s]+/`. -/
def stripChar (c : Char) : Bool := c = ',' || c = ':' || wsChar c

/-- JavaScript `s.replace(/^[,:\s]+/, '')`. -/
def stripLeadPunct (l : List Char) : List Char := l.dropWhile stripChar

/-- `t.slice(idx + ww.length).replace(/^[,:\s]+/, '').trim()` where
`idx = lowercase(t).indexOf(ww)`, and the whole original `t` when the wake
word does not occur (the dead `: t` arm of the ternary). `ww` here is the
raw configured wake word; the source lowercases it once at callback entry. -/
def wakeRemainder (t ww : String) : String :=
  match strIndexOf (jsLower t) (jsLower ww) with
  | some idx => ⟨trimChars (stripLeadPunct (t.data.drop (idx + (jsLower ww).length)))⟩
  | none => t

/-! ## Module state (`voice.js` module-level variables) -/

/-- The module-level mutable state of `voice.js`.  `pendingTimers` is the
collection of outstanding wake-word timeouts (ids handed out by `setTimeout`);
`wakeWordTimeout` is the variable storing the id of the most recently armed
one (`none` models the initial `null`). -/
structure VState where
  recognizing : Bool
  active : Bool
  userStopped : Bool
  recExists : Bool
  voiceMode : String
  wakeWordActive : Bool
  wakeWordTimeout : Option Nat
  pendingTimers : List Nat
  nextTimerId : Nat
  continuousEnabled : Bool
  lastTranscript : String
  lastSentAt : Int
  deriving Repr, DecidableEq

/-- The state at module load. -/
def initState : VState :=
  { recognizing := false, active := false, userStopped := false, recExists := false
    voiceMode := "off", wakeWordActive := false, wakeWordTimeout := none
    pendingTimers := [], nextTimerId := 0, continuousEnabled := false
    lastTranscript := "", lastSentAt := 0 }

/-- `SEND_DEBOUNCE_MS`. -/
def SEND_DEBOUNCE_MS : Int := 1200

/-- `WAKE_WORD_TIMEOUT` (ms). -/
def WAKE_WORD_TIMEOUT : Nat := 5000

/-- `clearTimeout(wakeWordTimeout)`: cancel the stored wake-word timer if it
is still outstanding (a no-op on the initial `null`). -/
def clearWakeTimeout (s : VState) : VState :=
  match s.wakeWordTimeout with
  | none => s
  | some id => { s with pendingTimers := s.pendingTimers.filter (fun j => j ≠ id) }

/-- `wakeWordTimeout = setTimeout(..., WAKE_WORD_TIMEOUT)`: arm a fresh timer
and remember its id. -/
def setWakeTimeout (s : VState) : VState :=
  { s with pendingTimers := s.pendingTimers ++ [s.nextTimerId]
           wakeWordTimeout := some s.nextTimerId
           nextTimerId := s.nextTimerId + 1 }

/-- Wake-word activation (lines 56–61): set `wakeWordActive`, clear any
pending timer, arm a new 5 s timeout. -/
def wwActivate (s : VState) : VState :=
  setWakeTimeout (clearWakeTimeout { s with wakeWordActive := true })

/-- Closing the wake-word window after a command: `wakeWordActive = false;
clearTimeout(wakeWordTimeout)`. -/
def closeWindow (s : VState) : VState :=
  clearWakeTimeout { s with wakeWordActive := false }

/-- The body of the wake-word timeout callback (lines 58–61): deactivate and
notify; it dispatches no transcript.  The fired timer is no longer pending. -/
def fireWakeTimer (s : VState) (id : Nat) : VState × List String :=
  if id ∈ s.pendingTimers then
    ({ s with pendingTimers := s.pendingTimers.filter (fun j => j ≠ id)
              wakeWordActive := false }, [])
  else (s, [])

/-! ## The `rec.onresult` handler -/

/-- One entry of `e.results` (the engine's raw transcript and finality flag). -/
structure RawResult where
  transcript : String
  isFinal : Bool
  deriving Repr, DecidableEq

/-- Processing of a single result `e.results[i]` at time `now = Date.now()`:
returns the new state, the transcripts dispatched, and whether the loop
`break`s (continuous branch only). -/
def resultStep (ww : String) (now : Int) (s : VState) (r : RawResult) :
    VState × List String × Bool :=
  let t := jsTrim r.transcript
  let text := jsLower t
  let wwl := jsLower ww
  let hasWake := strIncludes text wwl
  if s.voiceMode = "wake_word" then
    if hasWake && !s.wakeWordActive then
      let s1 := wwActivate s
      if r.isFinal then
        let rem := wakeRemainder t ww
        if rem ≠ "" then
          if rem ≠ s.lastTranscript ∨ now - s.lastSentAt > SEND_DEBOUNCE_MS then
            (closeWindow { s1 with lastTranscript := rem, lastSentAt := now }, [rem], false)
          else (closeWindow s1, [], false)
        else (s1, [], false)
      else (s1, [], false)
    else if s.wakeWordActive && r.isFinal then
      if t ≠ "" ∧ (t ≠ s.lastTranscript ∨ now - s.lastSentAt > SEND_DEBOUNCE_MS) then
        (closeWindow { s with lastTranscript := t, lastSentAt := now }, [t], false)
      else (closeWindow s, [], false)
    else (s, [], false)
  else if s.voiceMode = "continuous" then
    if !s.active then
      if hasWake then
        let s1 := { s with active := true }
        if r.isFinal then
          let rem := wakeRemainder t ww
          if rem ≠ "" ∧ (rem ≠ s.lastTranscript ∨ now - s.lastSentAt > SEND_DEBOUNCE_MS) then
            ({ s1 with lastTranscript := rem, lastSentAt := now, active := false }, [rem], true)
          else ({ s1 with active := false }, [], true)
        else (s1, [], false)
      else (s, [], false)
    else if r.isFinal then
      if t ≠ "" ∧ (t ≠ s.lastTranscript ∨ now - s.lastSentAt > SEND_DEBOUNCE_MS) then
        ({ s with lastTranscript := t, lastSentAt := now, active := false }, [t], true)
      else ({ s with active := false }, [], true)
    else (s, [], false)
  else (s, [], false)

/-- The `rec.onresult` loop over `e.results` from `e.resultIndex` on (the
list `rs` is that slice), honouring the `break` of the continuous branch. -/
def onresult (ww : String) (now : Int) (s : VState) : List RawResult → VState × List String
  | [] => (s, [])
  | r :: rs =>
    let step := resultStep ww now s r
    if step.2.2 then (step.1, step.2.1)
    else
      let rest := onresult ww now step.1 rs
      (rest.1, step.2.1 ++ rest.2)

/-! ## Engine lifecycle callbacks and public operations -/

/-- Side requests made to the underlying engine / scheduler, recorded as a
trace so that ordering claims can be stated. -/
inductive Act where
  | recStart
  | recStop
  | scheduleRestart (delayMs : Nat)
  deriving Repr, DecidableEq

/-- `rec.onstart`. -/
def onstartStep (s : VState) : VState := { s with recognizing := true }

/-- `rec.onend` (lines 124–128): mark not recognizing; schedule an
auto-restart after 200 ms only when `continuousEnabled && !userStopped`. -/
def onendStep (s : VState) : VState × List Act :=
  let s1 := { s with recognizing := false }
  if s1.continuousEnabled && !s1.userStopped then (s1, [Act.scheduleRestart 200])
  else (s1, [])

/-- `rec.onerror` (lines 129–135): when continuous mode is still enabled and
not user-stopped, request a stop and schedule a restart after 400 ms. -/
def onerrorStep (s : VState) : VState × List Act :=
  if s.continuousEnabled && !s.userStopped then (s, [Act.recStop, Act.scheduleRestart 400])
  else (s, [])

/-- `ensureRecognizer`: lazily construct the session when supported. -/
def ensureRecognizer (sup : Bool) (s : VState) : VState :=
  if s.recExists || !sup then s else { s with recExists := true }

/-- `start(mode)` (lines 139–148).  `sup` is the memoized `supportsSR`. -/
def start (sup : Bool) (mode : String) (s : VState) : VState × List Act :=
  if !sup then (s, [])
  else
    let s1 := { s with userStopped := false
                       voiceMode := mode
                       continuousEnabled := (mode = "continuous" || mode = "wake_word")
                       wakeWordActive := false }
    let s2 := ensureRecognizer sup (clearWakeTimeout s1)
    (s2, if s2.recExists then [Act.recStart] else [])

/-- `stop()` (lines 150–157). -/
def stop (s : VState) : VState × List Act :=
  let s1 := { s with continuousEnabled := false
                     userStopped := true
                     voiceMode := "off"
                     wakeWordActive := false }
  let s2 := clearWakeTimeout s1
  (s2, if s2.recExists then [Act.recStop] else [])

/-- `isAvailable()`. -/
def isAvailable (sup : Bool) : Bool := sup

/-- `setMode(mode)`. -/
def setMode (mode : String) (s : VState) : VState := { s with voiceMode := mode }

/-- `getMode()`. -/
def getMode (s : VState) : String := s.voiceMode

/-- `isWakeWordActive()`. -/
def isWakeWordActive (s : VState) : Bool := s.wakeWordActive

/-- `window.enableAutoVoice(mode)` (lines 250–254): `false` when
unsupported, else `start(mode)` and `true`. -/
def enableAutoVoice (sup : Bool) (mode : String) (s : VState) : Bool × VState × List Act :=
  if !sup then (false, s, [])
  else
    let r := start sup mode s
    (true, r.1, r.2)

/-! ## The one-shot listener `listenOnce` -/

/-- The callbacks that can reach the one-shot session's `finish`, in the
order they fire: the `timeoutMs` timer, `onresult` (with the raw transcript
of `e.results[0][0]`, or `none` when that chain is undefined), `onerror`,
`onend`, and the catch around `one.start()`. -/
inductive OneEvent where
  | timeout
  | result (raw : Option String)
  | error
  | ended
  | startThrew
  deriving Repr, DecidableEq

/-- What `finish` does, recorded in order: the `one.stop()` attempt and the
promise resolution. -/
inductive OneAct where
  | stopAttempt
  | resolve (v : Option String)
  deriving Repr, DecidableEq

/-- Local state of one `listenOnce` call: the `done` guard, the action
trace, and whether `clearTimeout(timer)` has run. -/
structure OneState where
  done : Bool
  trace : List OneAct
  timerCleared : Bool
  deriving Repr, DecidableEq

/-- `resolve((val||'').trim()||null)`: empty/undefined input and
whitespace-only input resolve `null`. -/
def oneNormalize (val : Option String) : Option String :=
  let t := jsTrim (val.getD "")
  if t = "" then none else some t

/-- `finish(val)` (line 168): a no-op once `done`; otherwise attempt
`one.stop()` and resolve the normalized value. -/
def finish (val : Option String) (s : OneState) : OneState :=
  if s.done then s
  else { s with done := true
                trace := s.trace ++ [OneAct.stopAttempt, OneAct.resolve (oneNormalize val)] }

/-- Dispatch of one callback of the one-shot session. -/
def oneHandle (s : OneState) : OneEvent → OneState
  | OneEvent.timeout => finish none s
  | OneEvent.result raw => finish raw { s with timerCleared := true }
  | OneEvent.error => finish none { s with timerCleared := true }
  | OneEvent.ended => finish none s
  | OneEvent.startThrew => finish none s

/-- Run the one-shot session over the sequence of callbacks that fire. -/
def runOne (evs : List OneEvent) : OneState :=
  evs.foldl oneHandle { done := false, trace := [], timerCleared := false }

/-- The value of the first `resolve` in a trace (`none` when the promise
never resolved). -/
def resolvedOf : List OneAct → Option (Option String)
  | [] => none
  | OneAct.resolve v :: _ => some v
  | OneAct.stopAttempt :: rest => resolvedOf rest

/-- `listenOnce(timeoutMs)` (lines 160–178): `null` at once when
unsupported, else the value resolved by whichever callback wins.  Returns
the resolved value and the session's action trace. -/
def listenOnce (sup : Bool) (evs : List OneEvent) : Option String × List OneAct :=
  if !sup then (none, [])
  else
    let fin := runOne evs
    ((resolvedOf fin.trace).getD none, fin.trace)

/-! ## `listenOnceSmart` -/

/-- Steps taken by `listenOnceSmart`, in order. -/
inductive SAct where
  | recStop
  | settleDelay (ms : Nat)
  | listenOnceCall (timeoutMs : Nat)
  | dispatchTranscript (t : String)
  | startCall (mode : String)
  deriving Repr, DecidableEq

/-- `listenOnceSmart(timeoutMs)` (lines 181–199).  The one-shot session's
callbacks are the oracle `evs`; returns the final state, the ordered action
trace, the transcripts dispatched, and the value returned. -/
def listenOnceSmart (sup : Bool) (timeoutMs : Nat) (evs : List OneEvent) (s : VState) :
    VState × List SAct × List String × Option String :=
  let currentMode := s.voiceMode
  let shouldResume := s.continuousEnabled
  let pre :=
    if s.recognizing then
      ({ s with userStopped := true }, [SAct.recStop, SAct.settleDelay 150])
    else (s, ([] : List SAct))
  let t := (listenOnce sup evs).1
  let acts1 := pre.2 ++ [SAct.listenOnceCall timeoutMs]
  let disp :=
    match t with
    | some tv => if tv = "" then (acts1, ([] : List String)) else
        (acts1 ++ [SAct.dispatchTranscript tv], [tv])
    | none => (acts1, ([] : List String))
  if shouldResume then
    let s1 := { pre.1 with userStopped := false }
    let r := start sup currentMode s1
    (r.1, disp.1 ++ [SAct.startCall currentMode], disp.2, t)
  else (pre.1, disp.1, disp.2, t)

/-! ## The event system over the module state -/

/-- The events that can reach the module state on the single cooperative
callback queue: an `onresult` batch, the wake-word timeout firing, the
public `start`/`stop`/`setMode` calls, and the engine lifecycle callbacks. -/
inductive VEvent where
  | results (now : Int) (rs : List RawResult)
  | wakeTimerFire (id : Nat)
  | startCall (mode : String)
  | stopCall
  | setModeCall (mode : String)
  | engStart
  | engEnd
  | engError
  deriving Repr, DecidableEq

/-- One step of the module: the new state and the transcripts dispatched. -/
def stepEvent (sup : Bool) (ww : String) (s : VState) : VEvent → VState × List String
  | VEvent.results now rs => onresult ww now s rs
  | VEvent.wakeTimerFire id => fireWakeTimer s id
  | VEvent.startCall mode => ((start sup mode s).1, [])
  | VEvent.stopCall => ((stop s).1, [])
  | VEvent.setModeCall mode => (setMode mode s, [])
  | VEvent.engStart => (onstartStep s, [])
  | VEvent.engEnd => ((onendStep s).1, [])
  | VEvent.engError => ((onerrorStep s).1, [])

/-- Run a sequence of events from the module-load state. -/
def runEvents (sup : Bool) (ww : String) (evs : List VEvent) : VState :=
  evs.foldl (fun s e => (stepEvent sup ww s e).1) initState

/-- The wake-word timer invariant: at most one timer is ever outstanding,
and any outstanding timer is the one the `wakeWordTimeout` variable stores. -/
def TimerInv (s : VState) : Prop :=
  s.pendingTimers = [] ∨ ∃ id, s.pendingTimers = [id] ∧ s.wakeWordTimeout = some id

/-- The value `listenOnce` resolves with when a given callback wins the
race to `finish`. -/
def oneFirstVal : OneEvent → Option String
  | OneEvent.result raw => oneNormalize raw
  | _ => none

/-- Shape of every value the one-shot listener can resolve: `null`, or a
nonempty string with no leading or trailing whitespace. -/
def NormalizedShape (v : Option String) : Prop :=
  v = none ∨ ∃ x, v = some x ∧ x ≠ "" ∧
    (∀ c ∈ x.data.head?, wsChar c = false) ∧
    (∀ c ∈ x.data.getLast?, wsChar c = false)

/-! ## Projection lemmas -/

theorem clearWakeTimeout_proj (s : VState) :
    (clearWakeTimeout s).recognizing = s.recognizing ∧
    (clearWakeTimeout s).active = s.active ∧
    (clearWakeTimeout s).userStopped = s.userStopped ∧
    (clearWakeTimeout s).recExists = s.recExists ∧
    (clearWakeTimeout s).voiceMode = s.voiceMode ∧
    (clearWakeTimeout s).wakeWordActive = s.wakeWordActive ∧
    (clearWakeTimeout s).wakeWordTimeout = s.wakeWordTimeout ∧
    (clearWakeTimeout s).nextTimerId = s.nextTimerId ∧
    (clearWakeTimeout s).continuousEnabled = s.continuousEnabled ∧
    (clearWakeTimeout s).lastTranscript = s.lastTranscript ∧
    (clearWakeTimeout s).lastSentAt = s.lastSentAt := by
  cases h : s.wakeWordTimeout <;> simp [clearWakeTimeout, h]

@[simp] theorem clearWakeTimeout_recognizing (s : VState) :
    (clearWakeTimeout s).recognizing = s.recognizing := (clearWakeTimeout_proj s).1

@[simp] theorem clearWakeTimeout_active (s : VState) :
    (clearWakeTimeout s).active = s.active := (clearWakeTimeout_proj s).2.1

@[simp] theorem clearWakeTimeout_userStopped (s : VState) :
    (clearWakeTimeout s).userStopped = s.userStopped := (clearWakeTimeout_proj s).2.2.1

@[simp] theorem clearWakeTimeout_recExists (s : VState) :
    (clearWakeTimeout s).recExists = s.recExists := (clearWakeTimeout_proj s).2.2.2.1

@[simp] theorem clearWakeTimeout_voiceMode (s : VState) :
    (clearWakeTimeout s).voiceMode = s.voiceMode := (clearWakeTimeout_proj s).2.2.2.2.1

@[simp] theorem clearWakeTimeout_wakeWordActive (s : VState) :
    (clearWakeTimeout s).wakeWordActive = s.wakeWordActive :=
  (clearWakeTimeout_proj s).2.2.2.2.2.1

@[simp] theorem clearWakeTimeout_wakeWordTimeout (s : VState) :
    (clearWakeTimeout s).wakeWordTimeout = s.wakeWordTimeout :=
  (clearWakeTimeout_proj s).2.2.2.2.2.2.1

@[simp] theorem clearWakeTimeout_nextTimerId (s : VState) :
    (clearWakeTimeout s).nextTimerId = s.nextTimerId :=
  (clearWakeTimeout_proj s).2.2.2.2.2.2.2.1

@[simp] theorem clearWakeTimeout_continuousEnabled (s : VState) :
    (clearWakeTimeout s).continuousEnabled = s.continuousEnabled :=
  (clearWakeTimeout_proj s).2.2.2.2.2.2.2.2.1

@[simp] theorem clearWakeTimeout_lastTranscript (s : VState) :
    (clearWakeTimeout s).lastTranscript = s.lastTranscript :=
  (clearWakeTimeout_proj s).2.2.2.2.2.2.2.2.2.1

@[simp] theorem clearWakeTimeout_lastSentAt (s : VState) :
    (clearWakeTimeout s).lastSentAt = s.lastSentAt :=
  (clearWakeTimeout_proj s).2.2.2.2.2.2.2.2.2.2

@[simp] theorem wwActivate_voiceMode (s : VState) :
    (wwActivate s).voiceMode = s.voiceMode := by simp [wwActivate, setWakeTimeout]

@[simp] theorem wwActivate_wakeWordActive (s : VState) :
    (wwActivate s).wakeWordActive = true := by simp [wwActivate, setWakeTimeout]

@[simp] theorem wwActivate_active (s : VState) :
    (wwActivate s).active = s.active := by simp [wwActivate, setWakeTimeout]

@[simp] theorem wwActivate_lastTranscript (s : VState) :
    (wwActivate s).lastTranscript = s.lastTranscript := by simp [wwActivate, setWakeTimeout]

@[simp] theorem wwActivate_lastSentAt (s : VState) :
    (wwActivate s).lastSentAt = s.lastSentAt := by simp [wwActivate, setWakeTimeout]

@[simp] theorem wwActivate_recognizing (s : VState) :
    (wwActivate s).recognizing = s.recognizing := by simp [wwActivate, setWakeTimeout]

@[simp] theorem wwActivate_continuousEnabled (s : VState) :
    (wwActivate s).continuousEnabled = s.continuousEnabled := by
  simp [wwActivate, setWakeTimeout]

@[simp] theorem closeWindow_voiceMode (s : VState) :
    (closeWindow s).voiceMode = s.voiceMode := by simp [closeWindow]

@[simp] theorem closeWindow_wakeWordActive (s : VState) :
    (closeWindow s).wakeWordActive = false := by simp [closeWindow]

@[simp] theorem closeWindow_active (s : VState) :
    (closeWindow s).active = s.active := by simp [closeWindow]

@[simp] theorem closeWindow_lastTranscript (s : VState) :
    (closeWindow s).lastTranscript = s.lastTranscript := by simp [closeWindow]

@[simp] theorem closeWindow_lastSentAt (s : VState) :
    (closeWindow s).lastSentAt = s.lastSentAt := by simp [closeWindow]

@[simp] theorem closeWindow_recognizing (s : VState) :
    (closeWindow s).recognizing = s.recognizing := by simp [closeWindow]

@[simp] theorem closeWindow_continuousEnabled (s : VState) :
    (closeWindow s).continuousEnabled = s.continuousEnabled := by simp [closeWindow]

@[simp] theorem ensureRecognizer_pendingTimers (sup : Bool) (s : VState) :
    (ensureRecognizer sup s).pendingTimers = s.pendingTimers := by
  unfold ensureRecognizer; split <;> rfl

@[simp] theorem ensureRecognizer_wakeWordTimeout (sup : Bool) (s : VState) :
    (ensureRecognizer sup s).wakeWordTimeout = s.wakeWordTimeout := by
  unfold ensureRecognizer; split <;> rfl

@[simp] theorem ensureRecognizer_voiceMode (sup : Bool) (s : VState) :
    (ensureRecognizer sup s).voiceMode = s.voiceMode := by
  unfold ensureRecognizer; split <;> rfl

@[simp] theorem ensureRecognizer_userStopped (sup : Bool) (s : VState) :
    (ensureRecognizer sup s).userStopped = s.userStopped := by
  unfold ensureRecognizer; split <;> rfl

@[simp] theorem ensureRecognizer_continuousEnabled (sup : Bool) (s : VState) :
    (ensureRecognizer sup s).continuousEnabled = s.continuousEnabled := by
  unfold ensureRecognizer; split <;> rfl

@[simp] theorem ensureRecognizer_wakeWordActive (sup : Bool) (s : VState) :
    (ensureRecognizer sup s).wakeWordActive = s.wakeWordActive := by
  unfold ensureRecognizer; split <;> rfl

@[simp] theorem ensureRecognizer_lastTranscript (sup : Bool) (s : VState) :
    (ensureRecognizer sup s).lastTranscript = s.lastTranscript := by
  unfold ensureRecognizer; split <;> rfl

@[simp] theorem ensureRecognizer_lastSentAt (sup : Bool) (s : VState) :
    (ensureRecognizer sup s).lastSentAt = s.lastSentAt := by
  unfold ensureRecognizer; split <;> rfl

/-! ## Preservation of the timer invariant -/

theorem clearWakeTimeout_pending_nil {s : VState} (h : TimerInv s) :
    (clearWakeTimeout s).pendingTimers = [] := by
  rcases h with h | ⟨id, hp, hw⟩
  · cases hw : s.wakeWordTimeout <;> simp [clearWakeTimeout, hw, h]
  · simp [clearWakeTimeout, hw, hp]

theorem timerInv_closeWindow {s : VState} (h : TimerInv s) : TimerInv (closeWindow s) :=
  Or.inl (clearWakeTimeout_pending_nil h)

theorem timerInv_wwActivate {s : VState} (h : TimerInv s) : TimerInv (wwActivate s) := by
  right
  refine ⟨(clearWakeTimeout { s with wakeWordActive := true }).nextTimerId, ?_, ?_⟩
  · show (setWakeTimeout _).pendingTimers = _
    rw [setWakeTimeout]
    rw [clearWakeTimeout_pending_nil (show TimerInv { s with wakeWordActive := true } from h)]
    rfl
  · rfl

theorem timerInv_fireWakeTimer {s : VState} (h : TimerInv s) (id : Nat) :
    TimerInv (fireWakeTimer s id).1 := by
  unfold fireWakeTimer
  split_ifs with hmem
  · left
    rcases h with h | ⟨i, hp, _⟩
    · simp [h]
    · have : id = i := by simpa [hp] using hmem
      simp [hp, this]
  · exact h

theorem timerInv_resultStep (ww : String) (now : Int) (s : VState) (r : RawResult)
    (h : TimerInv s) : TimerInv (resultStep ww now s r).1 := by
  simp only [resultStep]
  split_ifs <;>
    first
      | exact h
      | exact timerInv_wwActivate h
      | exact timerInv_closeWindow (timerInv_wwActivate h)
      | exact timerInv_closeWindow h

theorem timerInv_onresult (ww : String) (now : Int) (rs : List RawResult) :
    ∀ s : VState, TimerInv s → TimerInv (onresult ww now s rs).1 := by
  induction rs with
  | nil => intro s h; exact h
  | cons r rs ih =>
    intro s h
    simp only [onresult]
    split_ifs with hb
    · exact timerInv_resultStep ww now s r h
    · exact ih _ (timerInv_resultStep ww now s r h)

theorem timerInv_start (sup : Bool) (mode : String) {s : VState} (h : TimerInv s) :
    TimerInv (start sup mode s).1 := by
  unfold start
  split_ifs with hs
  · exact h
  · left
    show (ensureRecognizer _ (clearWakeTimeout _)).pendingTimers = []
    rw [ensureRecognizer_pendingTimers]
    exact clearWakeTimeout_pending_nil h

theorem timerInv_stop {s : VState} (h : TimerInv s) : TimerInv (stop s).1 := by
  left
  show (clearWakeTimeout _).pendingTimers = []
  exact clearWakeTimeout_pending_nil h

theorem timerInv_stepEvent (sup : Bool) (ww : String) {s : VState} (h : TimerInv s)
    (e : VEvent) : TimerInv (stepEvent sup ww s e).1 := by
  cases e with
  | results now rs => exact timerInv_onresult ww now rs s h
  | wakeTimerFire id => exact timerInv_fireWakeTimer h id
  | startCall mode => exact timerInv_start sup mode h
  | stopCall => exact timerInv_stop h
  | setModeCall mode => exact h
  | engStart => exact h
  | engEnd =>
    show TimerInv (onendStep s).1
    simp only [onendStep]
    split_ifs <;> exact h
  | engError =>
    show TimerInv (onerrorStep s).1
    simp only [onerrorStep]
    split_ifs <;> exact h

theorem timerInv_initState : TimerInv initState := Or.inl rfl

theorem timerInv_runEvents (sup : Bool) (ww : String) (evs : List VEvent) :
    TimerInv (runEvents sup ww evs) := by
  have key : ∀ (l : List VEvent) (s : VState), TimerInv s →
      TimerInv (l.foldl (fun s e => (stepEvent sup ww s e).1) s) := by
    intro l
    induction l with
    | nil => intro s h; exact h
    | cons e l ih => intro s h; exact ih _ (timerInv_stepEvent sup ww h e)
  exact key evs initState timerInv_initState

/-! ## Characterization of the `onresult` branches -/

theorem onresult_singleton (ww : String) (now : Int) (s : VState) (r : RawResult) :
    onresult ww now s [r] = ((resultStep ww now s r).1, (resultStep ww now s r).2.1) := by
  simp only [onresult]
  split_ifs <;> simp

/-- Wake-word mode, window already open, final result: the command branch
(lines 80–91) emits the trimmed text exactly when it is nonempty and passes
the dedup test. -/
theorem resultStep_wake_cmd (ww : String) (now : Int) (s : VState) (r : RawResult)
    (hm : s.voiceMode = "wake_word") (ha : s.wakeWordActive = true) (hf : r.isFinal = true) :
    (resultStep ww now s r).2.1 =
      if jsTrim r.transcript ≠ "" ∧
          (jsTrim r.transcript ≠ s.lastTranscript ∨ now - s.lastSentAt > SEND_DEBOUNCE_MS)
      then [jsTrim r.transcript] else [] := by
  simp only [resultStep, hm, ha, hf]
  simp only [Bool.not_true, Bool.and_false, Bool.and_true, if_true, if_false,
    Bool.false_eq_true, reduceIte]
  split_ifs <;> rfl

/-- Continuous mode, already active, final result (lines 110–119). -/
theorem resultStep_cont_cmd (ww : String) (now : Int) (s : VState) (r : RawResult)
    (hm : s.voiceMode = "continuous") (ha : s.active = true) (hf : r.isFinal = true) :
    (resultStep ww now s r).2.1 =
      if jsTrim r.transcript ≠ "" ∧
          (jsTrim r.transcript ≠ s.lastTranscript ∨ now - s.lastSentAt > SEND_DEBOUNCE_MS)
      then [jsTrim r.transcript] else [] := by
  simp only [resultStep, hm, ha, hf]
  simp only [Bool.not_true, Bool.and_false, Bool.and_true, if_true, if_false,
    Bool.false_eq_true, String.reduceEq, reduceIte]
  split_ifs <;> rfl

/-- Wake-word mode, window closed, final result containing the wake word
with a nonempty remainder (lines 54–79): activation plus immediate command. -/
theorem resultStep_wake_act (ww : String) (now : Int) (s : VState) (r : RawResult)
    (hm : s.voiceMode = "wake_word") (ha : s.wakeWordActive = false)
    (hw : strIncludes (jsLower (jsTrim r.transcript)) (jsLower ww) = true)
    (hf : r.isFinal = true) (hrem : wakeRemainder (jsTrim r.transcript) ww ≠ "") :
    resultStep ww now s r =
      if wakeRemainder (jsTrim r.transcript) ww ≠ s.lastTranscript ∨
          now - s.lastSentAt > SEND_DEBOUNCE_MS
      then (closeWindow { wwActivate s with
              lastTranscript := wakeRemainder (jsTrim r.transcript) ww, lastSentAt := now },
            [wakeRemainder (jsTrim r.transcript) ww], false)
      else (closeWindow (wwActivate s), [], false) := by
  simp only [resultStep, hm, ha, hw, hf]
  simp only [Bool.not_false, Bool.and_true, if_true, reduceIte]
  rw [if_pos hrem]

/-- Continuous mode, inactive, final result containing the wake word
(lines 94–109): activation plus immediate command and loop break. -/
theorem resultStep_cont_act (ww : String) (now : Int) (s : VState) (r : RawResult)
    (hm : s.voiceMode = "continuous") (ha : s.active = false)
    (hw : strIncludes (jsLower (jsTrim r.transcript)) (jsLower ww) = true)
    (hf : r.isFinal = true) :
    resultStep ww now s r =
      if wakeRemainder (jsTrim r.transcript) ww ≠ "" ∧
          (wakeRemainder (jsTrim r.transcript) ww ≠ s.lastTranscript ∨
            now - s.lastSentAt > SEND_DEBOUNCE_MS)
      then ({ s with active := false
                     lastTranscript := wakeRemainder (jsTrim r.transcript) ww
                     lastSentAt := now },
            [wakeRemainder (jsTrim r.transcript) ww], true)
      else ({ s with active := false }, [], true) := by
  simp only [resultStep, hm, ha, hw, hf]
  simp only [Bool.not_false, Bool.and_true, if_true, reduceIte, String.reduceEq]

/-- Every transcript dispatched by a `resultStep` passed the dedup test
against the pre-step state, and the post-step state records it as the new
`lastTranscript`/`lastSentAt`. -/
theorem resultStep_emit_dedup (ww : String) (now : Int) (s : VState) (r : RawResult) :
    ∀ x ∈ (resultStep ww now s r).2.1,
      (x ≠ s.lastTranscript ∨ now - s.lastSentAt > SEND_DEBOUNCE_MS) ∧
      (resultStep ww now s r).1.lastTranscript = x ∧
      (resultStep ww now s r).1.lastSentAt = now := by
  simp only [resultStep]
  split_ifs <;> intro x hx <;>
    simp only [List.mem_singleton, List.not_mem_nil] at hx
  all_goals first
    | exact hx.elim
    | (subst hx; refine ⟨by tauto, by simp, by simp⟩)

/-- Wake-word mode: the same final wake-word-plus-command result fed twice
within the debounce window emits exactly once, and the first acceptance
records `lastTranscript`/`lastSentAt`. -/
theorem wake_twice (ww : String) (s : VState) (r : RawResult) (n1 n2 : Int)
    (hm : s.voiceMode = "wake_word") (ha : s.wakeWordActive = false)
    (hw : strIncludes (jsLower (jsTrim r.transcript)) (jsLower ww) = true)
    (hf : r.isFinal = true)
    (hrem : wakeRemainder (jsTrim r.transcript) ww ≠ "")
    (hfirst : wakeRemainder (jsTrim r.transcript) ww ≠ s.lastTranscript ∨
        n1 - s.lastSentAt > SEND_DEBOUNCE_MS)
    (hwin : n2 - n1 ≤ SEND_DEBOUNCE_MS) :
    (onresult ww n1 s [r]).2 = [wakeRemainder (jsTrim r.transcript) ww] ∧
    (onresult ww n1 s [r]).1.lastTranscript = wakeRemainder (jsTrim r.transcript) ww ∧
    (onresult ww n1 s [r]).1.lastSentAt = n1 ∧
    (onresult ww n2 (onresult ww n1 s [r]).1 [r]).2 = [] := by
  rw [onresult_singleton ww n1 s r, resultStep_wake_act ww n1 s r hm ha hw hf hrem,
    if_pos hfirst]
  refine ⟨rfl, by simp, by simp, ?_⟩
  rw [onresult_singleton, resultStep_wake_act ww n2 _ r (by simp [hm]) (by simp) hw hf hrem,
    if_neg ?hneg]
  case hneg =>
    intro hcon
    rcases hcon with hne | hgt
    · exact hne (by simp)
    · simp [SEND_DEBOUNCE_MS] at hgt hwin
      omega

/-- Continuous mode: the same final wake-word-plus-command result fed twice
within the debounce window emits exactly once. -/
theorem cont_twice (ww : String) (s : VState) (r : RawResult) (n1 n2 : Int)
    (hm : s.voiceMode = "continuous") (ha : s.active = false)
    (hw : strIncludes (jsLower (jsTrim r.transcript)) (jsLower ww) = true)
    (hf : r.isFinal = true)
    (hrem : wakeRemainder (jsTrim r.transcript) ww ≠ "")
    (hfirst : wakeRemainder (jsTrim r.transcript) ww ≠ s.lastTranscript ∨
        n1 - s.lastSentAt > SEND_DEBOUNCE_MS)
    (hwin : n2 - n1 ≤ SEND_DEBOUNCE_MS) :
    (onresult ww n1 s [r]).2 = [wakeRemainder (jsTrim r.transcript) ww] ∧
    (onresult ww n1 s [r]).1.lastTranscript = wakeRemainder (jsTrim r.transcript) ww ∧
    (onresult ww n1 s [r]).1.lastSentAt = n1 ∧
    (onresult ww n2 (onresult ww n1 s [r]).1 [r]).2 = [] := by
  rw [onresult_singleton ww n1 s r, resultStep_cont_act ww n1 s r hm ha hw hf,
    if_pos ⟨hrem, hfirst⟩]
  refine ⟨rfl, rfl, rfl, ?_⟩
  rw [onresult_singleton, resultStep_cont_act ww n2 _ r (by simp [hm]) rfl hw hf,
    if_neg ?hneg]
  case hneg =>
    intro hcon
    rcases hcon.2 with hne | hgt
    · exact hne (by simp)
    · simp [SEND_DEBOUNCE_MS] at hgt hwin
      omega

/-! ## Length facts: the emitted remainder is never the full text -/

theorem length_pos_of_ne_empty (s : String) (h : s ≠ "") : 0 < s.length := by
  cases s with
  | mk l =>
    cases l with
    | nil => exact absurd rfl h
    | cons c t => exact Nat.succ_pos _

theorem length_dropWhile_le' (l : List Char) (p : Char → Bool) :
    (l.dropWhile p).length ≤ l.length :=
  (List.dropWhile_suffix p).sublist.length_le

theorem trimChars_length_le (l : List Char) : (trimChars l).length ≤ l.length := by
  unfold trimChars
  calc ((l.dropWhile wsChar).reverse.dropWhile wsChar).reverse.length
      = ((l.dropWhile wsChar).reverse.dropWhile wsChar).length := List.length_reverse _
    _ ≤ (l.dropWhile wsChar).reverse.length := length_dropWhile_le' _ _
    _ = (l.dropWhile wsChar).length := List.length_reverse _
    _ ≤ l.length := length_dropWhile_le' _ _

theorem idxOfAux_bound (need : List Char) :
    ∀ (l : List Char) (i j : Nat), idxOfAux need l i = some j →
      ∃ k, j = i + k ∧ k + need.length ≤ l.length := by
  intro l
  induction l with
  | nil =>
    intro i j h
    simp only [idxOfAux] at h
    split_ifs at h with hpre
    · obtain rfl : i = j := by simpa using h
      have : need = [] := List.prefix_nil.mp (List.isPrefixOf_iff_prefix.mp hpre)
      exact ⟨0, by omega, by simp [this]⟩
  | cons c t ih =>
    intro i j h
    simp only [idxOfAux] at h
    split_ifs at h with hpre
    · obtain rfl : i = j := by simpa using h
      have := (List.isPrefixOf_iff_prefix.mp hpre).length_le
      exact ⟨0, by omega, by simpa using this⟩
    · obtain ⟨k, rfl, hk⟩ := ih (i + 1) j h
      exact ⟨k + 1, by omega, by simp only [List.length_cons]; omega⟩

theorem strIndexOf_bound {hay need : String} {j : Nat}
    (h : strIndexOf hay need = some j) : j + need.length ≤ hay.length := by
  obtain ⟨k, hk, hle⟩ := idxOfAux_bound need.data hay.data 0 j h
  subst hk
  simpa using hle

/-- When the wake word occurs in the (lowercased) text, the stripped
remainder is strictly shorter than the text: the emitted command never
equals the full text that contained the wake word. -/
theorem wakeRemainder_length_lt (t ww : String) (hww : ww ≠ "")
    (hw : strIncludes (jsLower t) (jsLower ww) = true) :
    (wakeRemainder t ww).length < t.length := by
  obtain ⟨idx, hidx⟩ : ∃ idx, strIndexOf (jsLower t) (jsLower ww) = some idx := by
    unfold strIncludes at hw
    cases h : strIndexOf (jsLower t) (jsLower ww) with
    | none => rw [h] at hw; simp at hw
    | some i => exact ⟨i, rfl⟩
  have hb := strIndexOf_bound hidx
  have hlt : (jsLower t).length = t.length := by
    show (t.data.map Char.toLower).length = t.data.length
    simp
  have hlw : (jsLower ww).length = ww.length := by
    show (ww.data.map Char.toLower).length = ww.data.length
    simp
  have hwwpos : 0 < ww.length := length_pos_of_ne_empty ww hww
  unfold wakeRemainder
  rw [hidx]
  show (trimChars (stripLeadPunct (t.data.drop (idx + (jsLower ww).length)))).length <
    t.data.length
  have h1 : (trimChars (stripLeadPunct (t.data.drop (idx + (jsLower ww).length)))).length ≤
      (t.data.drop (idx + (jsLower ww).length)).length :=
    le_trans (trimChars_length_le _) (length_dropWhile_le' _ _)
  have h2 : (t.data.drop (idx + (jsLower ww).length)).length =
      t.data.length - (idx + (jsLower ww).length) := List.length_drop _ _
  have ht : t.length = t.data.length := rfl
  rw [hlt, ht] at hb
  omega

/-! ## The one-shot listener: single resolution and value shape -/

theorem oneHandle_done {s : OneState} (h : s.done = true) (e : OneEvent) :
    (oneHandle s e).done = true ∧ (oneHandle s e).trace = s.trace := by
  cases e <;> simp [oneHandle, finish, h]

theorem foldl_oneHandle_done (evs : List OneEvent) :
    ∀ s : OneState, s.done = true →
      (evs.foldl oneHandle s).done = true ∧ (evs.foldl oneHandle s).trace = s.trace := by
  induction evs with
  | nil => intro s h; exact ⟨h, rfl⟩
  | cons e evs ih =>
    intro s h
    rw [List.foldl_cons]
    obtain ⟨hd, ht⟩ := oneHandle_done h e
    obtain ⟨hd', ht'⟩ := ih _ hd
    exact ⟨hd', ht'.trans ht⟩

theorem runOne_cons_trace (e : OneEvent) (evs : List OneEvent) :
    (runOne (e :: evs)).trace = [OneAct.stopAttempt, OneAct.resolve (oneFirstVal e)] := by
  unfold runOne
  rw [List.foldl_cons]
  have hnone : oneNormalize none = none := rfl
  have h1 : (oneHandle { done := false, trace := [], timerCleared := false } e).done = true ∧
      (oneHandle { done := false, trace := [], timerCleared := false } e).trace =
        [OneAct.stopAttempt, OneAct.resolve (oneFirstVal e)] := by
    cases e <;> simp [oneHandle, finish, oneFirstVal, hnone]
  obtain ⟨hd, ht⟩ := h1
  obtain ⟨_, ht'⟩ := foldl_oneHandle_done evs _ hd
  rw [ht', ht]

theorem listenOnce_first (e : OneEvent) (evs : List OneEvent) :
    (listenOnce true (e :: evs)).1 = oneFirstVal e := by
  show (resolvedOf (runOne (e :: evs)).trace).getD none = oneFirstVal e
  rw [runOne_cons_trace]
  rfl

theorem head?_dropWhile_not (l : List Char) (p : Char → Bool) (c : Char)
    (h : (l.dropWhile p).head? = some c) : p c = false := by
  induction l with
  | nil => simp [List.dropWhile] at h
  | cons a t ih =>
    rw [List.dropWhile_cons] at h
    split_ifs at h with hp
    · exact ih h
    · simp at h; subst h; simpa using hp

theorem prefix_head?_eq {l₁ l₂ : List Char} (h : l₁ <+: l₂) (hne : l₁ ≠ []) :
    l₂.head? = l₁.head? := by
  obtain ⟨t, rfl⟩ := h
  cases l₁ with
  | nil => exact absurd rfl hne
  | cons c l => rfl

theorem trimChars_head {l : List Char} {c : Char}
    (h : (trimChars l).head? = some c) : wsChar c = false := by
  have hpre : trimChars l <+: l.dropWhile wsChar := by
    show ((l.dropWhile wsChar).reverse.dropWhile wsChar).reverse <+: l.dropWhile wsChar
    have h2 : (l.dropWhile wsChar).reverse.dropWhile wsChar <:+ (l.dropWhile wsChar).reverse :=
      List.dropWhile_suffix wsChar
    have h3 := List.reverse_prefix.mpr h2
    rwa [List.reverse_reverse] at h3
  have hne : trimChars l ≠ [] := by
    intro he; rw [he] at h; exact absurd h (by simp)
  have := prefix_head?_eq hpre hne
  exact head?_dropWhile_not _ _ _ (this ▸ h)

theorem trimChars_getLast {l : List Char} {c : Char}
    (h : (trimChars l).getLast? = some c) : wsChar c = false := by
  have heq : (trimChars l).getLast? =
      ((l.dropWhile wsChar).reverse.dropWhile wsChar).head? := by
    unfold trimChars
    exact List.getLast?_reverse _
  rw [heq] at h
  exact head?_dropWhile_not _ _ _ h

/-- Every value the one-shot `finish` can resolve is `null` or a nonempty
string without leading/trailing whitespace. -/
theorem oneNormalize_spec (val : Option String) : NormalizedShape (oneNormalize val) := by
  simp only [NormalizedShape, oneNormalize]
  split_ifs with h
  · exact Or.inl rfl
  · refine Or.inr ⟨jsTrim ((val.getD "")), rfl, h, ?_, ?_⟩
    · intro c hc
      exact trimChars_head hc
    · intro c hc
      exact trimChars_getLast hc

theorem trace_resolutions_normalized (evs : List OneEvent) :
    ∀ (s : OneState),
      (∀ v, OneAct.resolve v ∈ s.trace → ∃ raw, v = oneNormalize raw) →
      ∀ v, OneAct.resolve v ∈ (evs.foldl oneHandle s).trace → ∃ raw, v = oneNormalize raw := by
  induction evs with
  | nil => intro s h; exact h
  | cons e evs ih =>
    intro s h
    rw [List.foldl_cons]
    refine ih _ ?_
    intro v hv
    have step : ∀ (s' : OneState) (val : Option String),
        OneAct.resolve v ∈ (finish val s').trace →
        OneAct.resolve v ∈ s'.trace ∨ v = oneNormalize val := by
      intro s' val hm
      unfold finish at hm
      split_ifs at hm
      · exact Or.inl hm
      · simp only [List.mem_append] at hm
        rcases hm with hm | hm
        · exact Or.inl hm
        · simp at hm
          exact Or.inr hm
    cases e with
    | timeout =>
      rcases step s none hv with hm | hm
      · exact h v hm
      · exact ⟨none, hm⟩
    | result raw =>
      rcases step { s with timerCleared := true } raw hv with hm | hm
      · exact h v hm
      · exact ⟨raw, hm⟩
    | error =>
      rcases step { s with timerCleared := true } none hv with hm | hm
      · exact h v hm
      · exact ⟨none, hm⟩
    | ended =>
      rcases step s none hv with hm | hm
      · exact h v hm
      · exact ⟨none, hm⟩
    | startThrew =>
      rcases step s none hv with hm | hm
      · exact h v hm
      · exact ⟨none, hm⟩

theorem resolvedOf_mem (tr : List OneAct) :
    ∀ v, resolvedOf tr = some v → OneAct.resolve v ∈ tr := by
  induction tr with
  | nil => intro v h; exact absurd h (by simp [resolvedOf])
  | cons a rest ih =>
    intro v h
    cases a with
    | stopAttempt =>
      rw [show resolvedOf (OneAct.stopAttempt :: rest) = resolvedOf rest from rfl] at h
      exact List.mem_cons_of_mem _ (ih v h)
    | resolve w =>
      obtain rfl : w = v := by simpa [resolvedOf] using h
      exact List.mem_cons_self _ _

/-! ## Properties of `start`, `stop` and `listenOnceSmart` -/

theorem start_true_proj (mode : String) (s : VState) :
    (start true mode s).1.voiceMode = mode ∧
    (start true mode s).1.userStopped = false ∧
    (start true mode s).1.continuousEnabled =
      (decide (mode = "continuous") || decide (mode = "wake_word")) ∧
    (start true mode s).1.wakeWordActive = false ∧
    (start true mode s).1.lastTranscript = s.lastTranscript ∧
    (start true mode s).1.lastSentAt = s.lastSentAt ∧
    (start true mode s).1.recExists = true := by
  simp only [start]
  rw [if_neg (by simp)]
  refine ⟨by simp, by simp, by simp, by simp, by simp, by simp, ?_⟩
  show (ensureRecognizer true _).recExists = true
  unfold ensureRecognizer
  split_ifs with h
  · simpa using h
  · rfl

theorem start_false_id (mode : String) (s : VState) : start false mode s = (s, []) := by
  simp [start]

theorem stop_dedup_frame (s : VState) :
    (stop s).1.continuousEnabled = false ∧
    (stop s).1.userStopped = true ∧
    (stop s).1.voiceMode = "off" ∧
    (stop s).1.wakeWordActive = false ∧
    (stop s).1.lastTranscript = s.lastTranscript ∧
    (stop s).1.lastSentAt = s.lastSentAt := by
  refine ⟨?_, ?_, ?_, ?_, ?_, ?_⟩ <;> simp [stop]

/-! ## Claim theorems -/

/-- C7: After `stop()` is called, a subsequently delivered engine
end-of-session callback never schedules an auto-restart: `stop` sets
`continuousEnabled := false` and `userStopped := true`, and the `onend`
restart guard `continuousEnabled && !userStopped` is therefore false, so
the `onend` step schedules nothing (and marks the session not
recognizing). -/
theorem claim7_stop_then_onend_no_restart (s : VState) :
    (stop s).1.continuousEnabled = false ∧
    (stop s).1.userStopped = true ∧
    (onendStep (stop s).1).2 = [] ∧
    (onendStep (stop s).1).1.recognizing = false := by
  obtain ⟨hc, hu, _, _, _, _⟩ := stop_dedup_frame s
  refine ⟨hc, hu, ?_, ?_⟩
  · simp [onendStep, hc]
  · simp only [onendStep]
    split_ifs <;> rfl

/-- C10: After `stop()` returns, `getMode()` is `"off"`,
`isWakeWordActive()` is false, `continuousEnabled` is false and
`userStopped` is true, while the dedup state
(`lastTranscript`/`lastSentAt`) is left unchanged. -/
theorem claim10_stop_frame (s : VState) :
    getMode (stop s).1 = "off" ∧
    isWakeWordActive (stop s).1 = false ∧
    (stop s).1.continuousEnabled = false ∧
    (stop s).1.userStopped = true ∧
    (stop s).1.lastTranscript = s.lastTranscript ∧
    (stop s).1.lastSentAt = s.lastSentAt := by
  obtain ⟨hc, hu, hm, hw, hl, hs⟩ := stop_dedup_frame s
  exact ⟨hm, hw, hc, hu, hl, hs⟩

/-- C8: When the platform primitive is absent (`supportsSR = false`),
every public operation is a safe no-op: `start` changes nothing and
requests nothing, `listenOnce` resolves `null` immediately with no session
activity, `listenOnceSmart` resolves `null` (in any state reachable
without support, i.e. not recognizing and continuous not enabled) while
emitting nothing, `isAvailable()` is false, and `enableAutoVoice` returns
false leaving the state untouched. -/
theorem claim8_unsupported_noop (mode : String) (s : VState) (evs : List OneEvent)
    (tms : Nat) :
    start false mode s = (s, []) ∧
    listenOnce false evs = (none, []) ∧
    (s.recognizing = false → s.continuousEnabled = false →
      listenOnceSmart false tms evs s = (s, [SAct.listenOnceCall tms], [], none)) ∧
    isAvailable false = false ∧
    enableAutoVoice false mode s = (false, s, []) := by
  refine ⟨start_false_id mode s, by simp [listenOnce], ?_, rfl, by simp [enableAutoVoice]⟩
  intro h1 h2
  simp [listenOnceSmart, h1, h2, listenOnce]

/-- C8 witness: the unsupported no-ops at the module-load state. -/
theorem claim8_witness :
    listenOnceSmart false 6000 [] initState =
      (initState, [SAct.listenOnceCall 6000], [], none) ∧
    start false "continuous" initState = (initState, []) ∧
    listenOnce false [OneEvent.result (some "point team a")] = (none, []) := by
  have h := claim8_unsupported_noop "continuous" initState
    [OneEvent.result (some "point team a")] 6000
  have h' := claim8_unsupported_noop "continuous" initState [] 6000
  exact ⟨h'.2.2.1 rfl rfl, h.1, h.2.1⟩

/-- C6: `listenOnce` resolves exactly once regardless of which callback
fires first or how many fire: the first callback to reach `finish` fixes
the outcome (one `stop` attempt followed by one resolution, nothing
after); the resolved value is the trimmed transcript for a winning
`onresult` (with a nonempty trim), and `null` when the timeout, the engine
error, the engine end, or a throwing `start()` wins. -/
theorem claim6_listenOnce_single_resolution :
    (∀ (e : OneEvent) (evs : List OneEvent),
      (runOne (e :: evs)).trace =
        [OneAct.stopAttempt, OneAct.resolve (oneFirstVal e)]) ∧
    (∀ (raw : String) (evs : List OneEvent), jsTrim raw ≠ "" →
      (listenOnce true (OneEvent.result (some raw) :: evs)).1 = some (jsTrim raw)) ∧
    (∀ (e : OneEvent) (evs : List OneEvent),
      (e = OneEvent.timeout ∨ e = OneEvent.error ∨ e = OneEvent.ended ∨
        e = OneEvent.startThrew) →
      (listenOnce true (e :: evs)).1 = none) := by
  refine ⟨runOne_cons_trace, ?_, ?_⟩
  · intro raw evs h
    rw [listenOnce_first]
    simp [oneFirstVal, oneNormalize, h]
  · intro e evs h
    rcases h with rfl | rfl | rfl | rfl <;> rw [listenOnce_first] <;> rfl

/-- C6 witness: a result callback wins over a later `onend`; a timeout
wins over a later result. -/
theorem claim6_witness :
    (listenOnce true [OneEvent.result (some "  point team a  "), OneEvent.ended]).1 =
      some (jsTrim "  point team a  ") ∧
    (listenOnce true [OneEvent.timeout, OneEvent.result (some "x")]).1 = none ∧
    (runOne [OneEvent.error]).trace =
      [OneAct.stopAttempt, OneAct.resolve (oneFirstVal OneEvent.error)] := by
  exact ⟨claim6_listenOnce_single_resolution.2.1 "  point team a  " [OneEvent.ended]
      (by decide),
    claim6_listenOnce_single_resolution.2.2 OneEvent.timeout [OneEvent.result (some "x")]
      (Or.inl rfl),
    claim6_listenOnce_single_resolution.1 OneEvent.error []⟩

/-- C9: `listenOnce` never resolves with an empty or whitespace-only
string: the resolved value, and every value ever passed to `resolve`, is
`null` or a nonempty string with no leading/trailing whitespace (a result
whose transcript trims to the empty string resolves `null`). -/
theorem claim9_no_whitespace_resolution (sup : Bool) (evs : List OneEvent) :
    NormalizedShape (listenOnce sup evs).1 ∧
    (∀ v, OneAct.resolve v ∈ (listenOnce sup evs).2 → NormalizedShape v) := by
  cases sup with
  | false =>
    refine ⟨Or.inl rfl, ?_⟩
    intro v hv
    exact absurd hv (by simp [listenOnce])
  | true =>
    have hnorm : ∀ v, OneAct.resolve v ∈ (runOne evs).trace →
        ∃ raw, v = oneNormalize raw := by
      refine trace_resolutions_normalized evs _ ?_
      intro v hv
      exact absurd hv (by simp)
    constructor
    · show NormalizedShape ((resolvedOf (runOne evs).trace).getD none)
      cases hres : resolvedOf (runOne evs).trace with
      | none => exact Or.inl rfl
      | some v =>
        obtain ⟨raw, rfl⟩ := hnorm v (resolvedOf_mem _ v hres)
        simpa using oneNormalize_spec raw
    · intro v hv
      obtain ⟨raw, rfl⟩ := hnorm v hv
      exact oneNormalize_spec raw

/-- C9 witness: a padded transcript resolves as its trim; a whitespace-only
transcript resolves `null`. -/
theorem claim9_witness :
    NormalizedShape (listenOnce true [OneEvent.result (some "  hi  ")]).1 ∧
    NormalizedShape (listenOnce true [OneEvent.result (some "   ")]).1 ∧
    NormalizedShape (some "hi") := by
  refine ⟨(claim9_no_whitespace_resolution true [OneEvent.result (some "  hi  ")]).1,
    (claim9_no_whitespace_resolution true [OneEvent.result (some "   ")]).1,
    (claim9_no_whitespace_resolution true [OneEvent.result (some "  hi  ")]).2
      (some "hi") (by decide)⟩

/-- C2: A final result whose (lowercased, trimmed) text contains the wake
word emits, in both `wake_word` and `continuous` modes, exactly the text
after the wake word with immediately following punctuation/whitespace
stripped — never the full text, which is strictly longer than the
remainder whenever the wake word is nonempty and occurs. -/
theorem claim2_wake_word_stripping :
    (∀ (ww : String) (now : Int) (s : VState) (r : RawResult),
      s.voiceMode = "wake_word" → s.wakeWordActive = false →
      strIncludes (jsLower (jsTrim r.transcript)) (jsLower ww) = true →
      r.isFinal = true → wakeRemainder (jsTrim r.transcript) ww ≠ "" →
      (wakeRemainder (jsTrim r.transcript) ww ≠ s.lastTranscript ∨
        now - s.lastSentAt > SEND_DEBOUNCE_MS) →
      (resultStep ww now s r).2.1 = [wakeRemainder (jsTrim r.transcript) ww]) ∧
    (∀ (ww : String) (now : Int) (s : VState) (r : RawResult),
      s.voiceMode = "continuous" → s.active = false →
      strIncludes (jsLower (jsTrim r.transcript)) (jsLower ww) = true →
      r.isFinal = true → wakeRemainder (jsTrim r.transcript) ww ≠ "" →
      (wakeRemainder (jsTrim r.transcript) ww ≠ s.lastTranscript ∨
        now - s.lastSentAt > SEND_DEBOUNCE_MS) →
      (resultStep ww now s r).2.1 = [wakeRemainder (jsTrim r.transcript) ww]) ∧
    (∀ t ww : String, ww ≠ "" → strIncludes (jsLower t) (jsLower ww) = true →
      (wakeRemainder t ww).length < t.length ∧ wakeRemainder t ww ≠ t) := by
  refine ⟨?_, ?_, ?_⟩
  · intro ww now s r hm ha hw hf hrem hded
    rw [resultStep_wake_act ww now s r hm ha hw hf hrem, if_pos hded]
  · intro ww now s r hm ha hw hf hrem hded
    rw [resultStep_cont_act ww now s r hm ha hw hf, if_pos ⟨hrem, hded⟩]
  · intro t ww hww hw
    have h := wakeRemainder_length_lt t ww hww hw
    refine ⟨h, fun he => ?_⟩
    rw [he] at h
    omega

/-- C2 witness: wake word `hey smashbot`, input
`"hey smashbot, point team a"`, in both modes: the emission is exactly
`"point team a"`. -/
theorem claim2_witness :
    (resultStep "hey smashbot" 1000 { initState with voiceMode := "wake_word" }
        { transcript := "hey smashbot, point team a", isFinal := true }).2.1 =
      [wakeRemainder (jsTrim "hey smashbot, point team a") "hey smashbot"] ∧
    (resultStep "hey smashbot" 1000 { initState with voiceMode := "continuous" }
        { transcript := "hey smashbot, point team a", isFinal := true }).2.1 =
      [wakeRemainder (jsTrim "hey smashbot, point team a") "hey smashbot"] ∧
    wakeRemainder (jsTrim "hey smashbot, point team a") "hey smashbot" = "point team a" := by
  refine ⟨claim2_wake_word_stripping.1 "hey smashbot" 1000 _ _ rfl rfl (by decide) rfl
      (by decide) (Or.inl (by decide)),
    claim2_wake_word_stripping.2.1 "hey smashbot" 1000 _ _ rfl rfl (by decide) rfl
      (by decide) (Or.inl (by decide)),
    by decide⟩

/-- C1: In `continuous` and `wake_word` modes the dedup filter admits a
command transcript exactly when it is nonempty and either differs from
`lastTranscript` or more than 1200 ms have elapsed since `lastSentAt`;
every admitted transcript updates `lastTranscript`/`lastSentAt`; and
feeding the same final result twice within 1200 ms yields exactly one
emission, in either mode. -/
theorem claim1_dedup :
    (∀ (ww : String) (now : Int) (s : VState) (r : RawResult),
      s.voiceMode = "wake_word" → s.wakeWordActive = true → r.isFinal = true →
      (resultStep ww now s r).2.1 =
        if jsTrim r.transcript ≠ "" ∧ (jsTrim r.transcript ≠ s.lastTranscript ∨
            now - s.lastSentAt > SEND_DEBOUNCE_MS)
        then [jsTrim r.transcript] else []) ∧
    (∀ (ww : String) (now : Int) (s : VState) (r : RawResult),
      s.voiceMode = "continuous" → s.active = true → r.isFinal = true →
      (resultStep ww now s r).2.1 =
        if jsTrim r.transcript ≠ "" ∧ (jsTrim r.transcript ≠ s.lastTranscript ∨
            now - s.lastSentAt > SEND_DEBOUNCE_MS)
        then [jsTrim r.transcript] else []) ∧
    (∀ (ww : String) (now : Int) (s : VState) (r : RawResult),
      ∀ x ∈ (resultStep ww now s r).2.1,
        (x ≠ s.lastTranscript ∨ now - s.lastSentAt > SEND_DEBOUNCE_MS) ∧
        (resultStep ww now s r).1.lastTranscript = x ∧
        (resultStep ww now s r).1.lastSentAt = now) ∧
    (∀ (ww : String) (s : VState) (r : RawResult) (n1 n2 : Int),
      s.voiceMode = "wake_word" → s.wakeWordActive = false →
      strIncludes (jsLower (jsTrim r.transcript)) (jsLower ww) = true →
      r.isFinal = true → wakeRemainder (jsTrim r.transcript) ww ≠ "" →
      (wakeRemainder (jsTrim r.transcript) ww ≠ s.lastTranscript ∨
        n1 - s.lastSentAt > SEND_DEBOUNCE_MS) →
      n2 - n1 ≤ SEND_DEBOUNCE_MS →
      (onresult ww n1 s [r]).2 = [wakeRemainder (jsTrim r.transcript) ww] ∧
      (onresult ww n1 s [r]).1.lastTranscript = wakeRemainder (jsTrim r.transcript) ww ∧
      (onresult ww n1 s [r]).1.lastSentAt = n1 ∧
      (onresult ww n2 (onresult ww n1 s [r]).1 [r]).2 = []) ∧
    (∀ (ww : String) (s : VState) (r : RawResult) (n1 n2 : Int),
      s.voiceMode = "continuous" → s.active = false →
      strIncludes (jsLower (jsTrim r.transcript)) (jsLower ww) = true →
      r.isFinal = true → wakeRemainder (jsTrim r.transcript) ww ≠ "" →
      (wakeRemainder (jsTrim r.transcript) ww ≠ s.lastTranscript ∨
        n1 - s.lastSentAt > SEND_DEBOUNCE_MS) →
      n2 - n1 ≤ SEND_DEBOUNCE_MS →
      (onresult ww n1 s [r]).2 = [wakeRemainder (jsTrim r.transcript) ww] ∧
      (onresult ww n1 s [r]).1.lastTranscript = wakeRemainder (jsTrim r.transcript) ww ∧
      (onresult ww n1 s [r]).1.lastSentAt = n1 ∧
      (onresult ww n2 (onresult ww n1 s [r]).1 [r]).2 = []) :=
  ⟨resultStep_wake_cmd, resultStep_cont_cmd, resultStep_emit_dedup, wake_twice, cont_twice⟩

/-- C1 witness: the same wake-word-plus-command final result fed at
t=1000 ms and again at t=2000 ms (within the 1200 ms window) emits exactly
once, and the acceptance updated the dedup state. -/
theorem claim1_witness :
    (onresult "hey smashbot" 1000 { initState with voiceMode := "wake_word" }
        [{ transcript := "hey smashbot, point team a", isFinal := true }]).2 =
      [wakeRemainder (jsTrim "hey smashbot, point team a") "hey smashbot"] ∧
    (onresult "hey smashbot" 1000 { initState with voiceMode := "wake_word" }
        [{ transcript := "hey smashbot, point team a", isFinal := true }]).1.lastSentAt =
      1000 ∧
    (onresult "hey smashbot" 2000
        (onresult "hey smashbot" 1000 { initState with voiceMode := "wake_word" }
          [{ transcript := "hey smashbot, point team a", isFinal := true }]).1
        [{ transcript := "hey smashbot, point team a", isFinal := true }]).2 = [] := by
  have h := claim1_dedup.2.2.2.1 "hey smashbot" { initState with voiceMode := "wake_word" }
    { transcript := "hey smashbot, point team a", isFinal := true } 1000 2000
    rfl rfl (by decide) rfl (by decide) (Or.inl (by decide)) (by decide)
  exact ⟨h.1, h.2.2.1, h.2.2.2⟩

/-- C4: The wake-word timeout callback emits no transcript and sets
`wakeWordActive := false`; and at most one wake-word timer is outstanding
at any time — the invariant `TimerInv` (no pending timer, or exactly the
one stored in `wakeWordTimeout`) is preserved by every event (result
batches, timer fire, `start`, `stop`, `setMode`, engine callbacks) and
holds along every event sequence from the module-load state. -/
theorem claim4_wake_timer :
    (∀ (s : VState) (id : Nat), id ∈ s.pendingTimers →
      (fireWakeTimer s id).2 = [] ∧ (fireWakeTimer s id).1.wakeWordActive = false) ∧
    (∀ (sup : Bool) (ww : String) (s : VState) (e : VEvent), TimerInv s →
      TimerInv (stepEvent sup ww s e).1) ∧
    (∀ (sup : Bool) (ww : String) (evs : List VEvent), TimerInv (runEvents sup ww evs)) := by
  refine ⟨?_, ?_, timerInv_runEvents⟩
  · intro s id h
    unfold fireWakeTimer
    rw [if_pos h]
    exact ⟨rfl, rfl⟩
  · intro sup ww s e h
    exact timerInv_stepEvent sup ww h e

/-- C4 witness: firing the armed timer on an open window emits nothing and
closes the window; the invariant holds after a concrete activation run. -/
theorem claim4_witness :
    (fireWakeTimer { initState with voiceMode := "wake_word", wakeWordActive := true, wakeWordTimeout := some 0, pendingTimers := [0], nextTimerId := 1 } 0).2 = [] ∧
    (fireWakeTimer { initState with voiceMode := "wake_word", wakeWordActive := true, wakeWordTimeout := some 0, pendingTimers := [0], nextTimerId := 1 } 0).1.wakeWordActive =
      false ∧
    TimerInv (runEvents true "hey smashbot"
      [VEvent.startCall "wake_word",
       VEvent.results 1000 [{ transcript := "hey smashbot", isFinal := false }]]) := by
  refine ⟨(claim4_wake_timer.1 _ 0 (by decide)).1, (claim4_wake_timer.1 _ 0 (by decide)).2,
    claim4_wake_timer.2.2 true "hey smashbot" _⟩

/-- C3 counterexample: the push-to-talk path dispatches a transcript with
no dedup check and no dedup-state update.  With `lastTranscript` already
equal to `"point team a"`, a one-shot capture of the same text is
dispatched anyway, and `lastTranscript`/`lastSentAt` are left untouched —
so not every emission passes the dedup filter. -/
theorem claim3_counterexample :
    (listenOnceSmart true 6000 [OneEvent.result (some "point team a")]
        { initState with recognizing := true, continuousEnabled := true, voiceMode := "continuous", recExists := true, lastTranscript := "point team a", lastSentAt := 5000 }).2.2.1 =
      ["point team a"] ∧
    ({ initState with recognizing := true, continuousEnabled := true, voiceMode := "continuous", recExists := true, lastTranscript := "point team a", lastSentAt := 5000 } : VState).lastTranscript =
      "point team a" ∧
    (listenOnceSmart true 6000 [OneEvent.result (some "point team a")]
        { initState with recognizing := true, continuousEnabled := true, voiceMode := "continuous", recExists := true, lastTranscript := "point team a", lastSentAt := 5000 }).1.lastTranscript =
      "point team a" ∧
    (listenOnceSmart true 6000 [OneEvent.result (some "point team a")]
        { initState with recognizing := true, continuousEnabled := true, voiceMode := "continuous", recExists := true, lastTranscript := "point team a", lastSentAt := 5000 }).1.lastSentAt = 5000 := by
  decide

/-- C3 (amended): the dedup filter gates every transcript emission of the
continuous-engine `onresult` handler (both `continuous` and `wake_word`
modes), updating the dedup state on each acceptance; but the push-to-talk
path (`listenOnceSmart`) dispatches any nonempty captured transcript
without consulting the dedup filter and without updating the dedup
state. -/
theorem claim3_amended :
    (∀ (ww : String) (now : Int) (s : VState) (r : RawResult),
      ∀ x ∈ (resultStep ww now s r).2.1,
        (x ≠ s.lastTranscript ∨ now - s.lastSentAt > SEND_DEBOUNCE_MS) ∧
        (resultStep ww now s r).1.lastTranscript = x ∧
        (resultStep ww now s r).1.lastSentAt = now) ∧
    (∀ (sup : Bool) (tms : Nat) (evs : List OneEvent) (s : VState),
      (listenOnceSmart sup tms evs s).1.lastTranscript = s.lastTranscript ∧
      (listenOnceSmart sup tms evs s).1.lastSentAt = s.lastSentAt) ∧
    (∀ (tms : Nat) (evs : List OneEvent) (s : VState) (tv : String),
      (listenOnce true evs).1 = some tv → tv ≠ "" →
      (listenOnceSmart true tms evs s).2.2.1 = [tv]) := by
  refine ⟨resultStep_emit_dedup, ?_, ?_⟩
  · intro sup tms evs s
    have hstart : ∀ (mode : String) (s' : VState),
        (start sup mode s').1.lastTranscript = s'.lastTranscript ∧
        (start sup mode s').1.lastSentAt = s'.lastSentAt := by
      intro mode s'
      unfold start
      split_ifs
      · exact ⟨rfl, rfl⟩
      · exact ⟨by simp, by simp⟩
    simp only [listenOnceSmart]
    cases ht : (listenOnce sup evs).1 with
    | none => split_ifs <;> simp [hstart]
    | some tv => split_ifs <;> simp [hstart]
  · intro tms evs s tv ht htv
    simp only [listenOnceSmart, ht]
    split_ifs <;> simp [htv]

/-- C3 witness for the amended claim: the `onresult` dedup gate at a
concrete acceptance, and the ungated PTT dispatch at a concrete capture. -/
theorem claim3_witness :
    (listenOnceSmart true 6000 [OneEvent.result (some "point team a")] initState).2.2.1 =
      ["point team a"] ∧
    (listenOnceSmart true 6000 [OneEvent.result (some "point team a")]
        initState).1.lastTranscript = initState.lastTranscript := by
  refine ⟨claim3_amended.2.2 6000 [OneEvent.result (some "point team a")] initState
      "point team a" (by decide) (by decide),
    (claim3_amended.2.1 true 6000 [OneEvent.result (some "point team a")] initState).1⟩

theorem start_true_voiceMode (mode : String) (s : VState) :
    (start true mode s).1.voiceMode = mode := (start_true_proj mode s).1

theorem start_true_userStopped (mode : String) (s : VState) :
    (start true mode s).1.userStopped = false := (start_true_proj mode s).2.1

theorem start_true_continuousEnabled (mode : String) (s : VState) :
    (start true mode s).1.continuousEnabled =
      (decide (mode = "continuous") || decide (mode = "wake_word")) :=
  (start_true_proj mode s).2.2.1

/-- C5: `listenOnceSmart`, invoked while the continuous session is
recognizing, marks it user-stopped and requests its stop, waits the 150 ms
settle delay, then runs the one-shot listener; afterwards — whether or not
a transcript was captured — if continuous mode had been enabled,
`start` is called with the mode that was active at invocation, leaving
`voiceMode` at that mode, `userStopped` false, and `continuousEnabled`
recomputed from that mode; the captured value is returned unchanged. -/
theorem claim5_smart_coordination (tms : Nat) (evs : List OneEvent) (s : VState)
    (hrec : s.recognizing = true) (hcont : s.continuousEnabled = true) :
    (listenOnceSmart true tms evs s).2.1 =
      [SAct.recStop, SAct.settleDelay 150, SAct.listenOnceCall tms] ++
        (match (listenOnce true evs).1 with
         | some tv => if tv = "" then [] else [SAct.dispatchTranscript tv]
         | none => []) ++ [SAct.startCall s.voiceMode] ∧
    (listenOnceSmart true tms evs s).1.voiceMode = s.voiceMode ∧
    (listenOnceSmart true tms evs s).1.userStopped = false ∧
    (listenOnceSmart true tms evs s).1.continuousEnabled =
      (decide (s.voiceMode = "continuous") || decide (s.voiceMode = "wake_word")) ∧
    (listenOnceSmart true tms evs s).2.2.2 = (listenOnce true evs).1 := by
  simp only [listenOnceSmart, hrec, hcont, if_true, reduceIte]
  cases ht : (listenOnce true evs).1 with
  | none =>
    simp [ht, start_true_voiceMode, start_true_userStopped, start_true_continuousEnabled]
  | some tv =>
    by_cases htv : tv = ""
    · simp [ht, htv, start_true_voiceMode, start_true_userStopped,
        start_true_continuousEnabled]
    · simp [ht, htv, start_true_voiceMode, start_true_userStopped,
        start_true_continuousEnabled]

/-- C5 witness: a concrete interrupted wake-word session with a captured
transcript: stop, settle, one-shot, dispatch, restart in the prior mode. -/
theorem claim5_witness :
    (listenOnceSmart true 7000 [OneEvent.result (some "point team a")]
        { initState with recognizing := true, continuousEnabled := true, voiceMode := "wake_word", recExists := true }).2.1 =
      [SAct.recStop, SAct.settleDelay 150, SAct.listenOnceCall 7000] ++
        (match (listenOnce true [OneEvent.result (some "point team a")]).1 with
         | some tv => if tv = "" then [] else [SAct.dispatchTranscript tv]
         | none => []) ++ [SAct.startCall "wake_word"] ∧
    (listenOnceSmart true 7000 [OneEvent.result (some "point team a")]
        { initState with recognizing := true, continuousEnabled := true, voiceMode := "wake_word", recExists := true }).1.voiceMode =
      "wake_word" ∧
    (listenOnceSmart true 7000 [OneEvent.result (some "point team a")]
        { initState with recognizing := true, continuousEnabled := true, voiceMode := "wake_word", recExists := true }).1.userStopped =
      false := by
  have h := claim5_smart_coordination 7000 [OneEvent.result (some "point team a")]
    { initState with recognizing := true, continuousEnabled := true, voiceMode := "wake_word", recExists := true } rfl rfl
  exact ⟨h.1, h.2.1, h.2.2.1⟩

end Voice
